import Mathlib

/-!
Verification of the Swarm-UI search subsystem (Tantivy-backed session index).

Shallow embedding of the Rust sources under `src-tauri/src/search/`
(`indexer.rs`, `queries.rs`, `watcher.rs`, `schema.rs`) and the startup gate
in `lib.rs`.  External libraries (chrono timestamp parsing, the BM25 scorer
and the query-string parser of the tantivy engine) are modelled as explicit
function parameters: the repository code only pipes their results around.
Machine integers (`u64`) are modelled as `Nat`; token counters in this
domain are far from the 2^64 boundary and the code performs no wrapping
arithmetic on them.
-/

namespace SwarmUI

/-- Model of a `serde_json::Value` as deserialized from one JSONL line.
Numbers are modelled as `Int` (no claim touches numeric JSON payloads). -/
inductive JsonVal : Type where
  | null : JsonVal
  | bool (b : Bool) : JsonVal
  | num (n : Int) : JsonVal
  | str (s : String) : JsonVal
  | arr (xs : List JsonVal) : JsonVal
  | obj (fields : List (String × JsonVal)) : JsonVal

/-- `Value::as_str`. -/
def JsonVal.asStr : JsonVal → Option String
  | .str s => some s
  | _ => none

/-- `Value::as_array`. -/
def JsonVal.asArr : JsonVal → Option (List JsonVal)
  | .arr xs => some xs
  | _ => none

/-- `Value::get(key)` on an object (first binding wins; a serde_json map
holds one binding per key). -/
def JsonVal.get (v : JsonVal) (key : String) : Option JsonVal :=
  match v with
  | .obj fields => (fields.find? (fun f => f.1 == key)).map (·.2)
  | _ => none

/-- JSON string escaping as performed by `serde_json::to_string`
(quote, backslash and the common control characters). -/
def escapeJsonChar (c : Char) : String :=
  if c = '"' then "\\\""
  else if c = '\\' then "\\\\"
  else if c = '\n' then "\\n"
  else if c = '\t' then "\\t"
  else if c = '\r' then "\\r"
  else String.singleton c

/-- Serialize a JSON string literal. -/
def escapeJson (s : String) : String :=
  "\"" ++ String.join (s.data.map escapeJsonChar) ++ "\""

mutual
/-- Compact serialization, modelling `serde_json::to_string`. -/
def JsonVal.compact : JsonVal → String
  | .null => "null"
  | .bool b => if b then "true" else "false"
  | .num n => toString n
  | .str s => escapeJson s
  | .arr xs => "[" ++ compactList xs ++ "]"
  | .obj fields => "\x7b" ++ compactFields fields ++ "\x7d"

/-- Comma-joined serialization of an array's elements. -/
def compactList : List JsonVal → String
  | [] => ""
  | [x] => x.compact
  | x :: y :: rest => x.compact ++ "," ++ compactList (y :: rest)

/-- Comma-joined serialization of an object's fields. -/
def compactFields : List (String × JsonVal) → String
  | [] => ""
  | [f] => escapeJson f.1 ++ ":" ++ f.2.compact
  | f :: g :: rest => escapeJson f.1 ++ ":" ++ f.2.compact ++ "," ++ compactFields (g :: rest)
end

/-- One extracted content block (`ContentBlock` in `indexer.rs`). -/
structure ContentBlock where
  content_type : String
  text : String
deriving DecidableEq, Repr

/-- `extract_content_blocks` from `indexer.rs`: normalize a message `content`
value into a list of typed blocks. -/
def extract_content_blocks (content : JsonVal) : List ContentBlock :=
  match content.asStr with
  | some s => if s ≠ "" then [⟨"text", s⟩] else []
  | none =>
    match content.asArr with
    | none => []
    | some arr =>
      arr.foldl (fun blocks block =>
        let blockType := (block.get "type" |>.bind JsonVal.asStr).getD ""
        if blockType = "text" then
          let text := (block.get "text" |>.bind JsonVal.asStr).getD ""
          if text ≠ "" then blocks ++ [⟨"text", text⟩] else blocks
        else if blockType = "tool_use" then
          let name := (block.get "name" |>.bind JsonVal.asStr).getD "unknown"
          let input := ((block.get "input").map JsonVal.compact).getD ""
          blocks ++ [⟨"tool_use", "tool_use: " ++ name ++ " " ++ input⟩]
        else if blockType = "tool_result" then
          let contentVal := block.get "content"
          let text :=
            match contentVal.bind JsonVal.asArr with
            | some arr2 =>
              String.intercalate "\n"
                (arr2.filterMap (fun b => b.get "text" |>.bind JsonVal.asStr))
            | none =>
              match contentVal.bind JsonVal.asStr with
              | some s => s
              | none => ""
          if text ≠ "" then blocks ++ [⟨"tool_result", text⟩] else blocks
        else if blockType = "thinking" then
          let text :=
            (((block.get "thinking").or (block.get "text")).bind JsonVal.asStr).getD ""
          if text ≠ "" then blocks ++ [⟨"thinking", text⟩] else blocks
        else blocks) []

/-- Byte length of a string under UTF-8, i.e. Rust `str::len`. -/
def strByteLen (s : String) : Nat :=
  (s.data.map Char.utf8Size).sum

/-- `str::char_indices` over a char list: each char paired with its byte
offset. -/
def charIndicesFrom (off : Nat) : List Char → List (Nat × Char)
  | [] => []
  | c :: cs => (off, c) :: charIndicesFrom (off + c.utf8Size) cs

/-- `s.char_indices()` starting at byte offset 0. -/
def charIndices (s : String) : List (Nat × Char) :=
  charIndicesFrom 0 s.data

/-- Byte-slice `s[..endByte]` at a char boundary: the longest prefix of
chars whose total UTF-8 size is at most `endByte`. -/
def bytePrefix (endByte : Nat) : List Char → List Char
  | [] => []
  | c :: cs => if c.utf8Size ≤ endByte then c :: bytePrefix (endByte - c.utf8Size) cs else []

/-- `truncate_at_char_boundary` from `indexer.rs`: if the string is longer
than `maxBytes`, take the chars whose starting index is `≤ maxBytes` and
slice at the end of the last one. -/
def truncate_at_char_boundary (s : String) (maxBytes : Nat) : String :=
  if strByteLen s ≤ maxBytes then s
  else
    let taken := (charIndices s).takeWhile (fun ic => ic.1 ≤ maxBytes)
    let endByte :=
      match taken.getLast? with
      | some ic => ic.1 + ic.2.utf8Size
      | none => min maxBytes (strByteLen s)
    ⟨bytePrefix endByte s.data⟩

/-- The truncation applied by the parser at both storage sites
(`content_stored` and `first_prompt`): truncate only when the text is
longer than 500 bytes. -/
def truncIfLong (t : String) : String :=
  if strByteLen t > 500 then truncate_at_char_boundary t 500 else t

/-- `parse_timestamp` from `indexer.rs`.  `chronoParse` models the two
chrono-library parse attempts (RFC 3339, then the naive
`%Y-%m-%dT%H:%M:%S%.fZ` format), returning epoch seconds on success; the
numeric fallback (epoch seconds, or epoch milliseconds above 10^12) is the
repository's own code. -/
def parse_timestamp (chronoParse : String → Option Int) (ts : String) : Option Int :=
  if ts = "" then none
  else
    match chronoParse ts with
    | some t => some t
    | none =>
      match ts.toNat? with
      | some num => some (Int.ofNat (if num > 1000000000000 then num / 1000 else num))
      | none => none

/-! ## JSONL entry model (`IndexJsonlEntry` and friends in `indexer.rs`) -/

/-- `IndexJsonlUsage`. -/
structure IndexJsonlUsage where
  input_tokens : Option Nat
  output_tokens : Option Nat
deriving DecidableEq, Repr

/-- `IndexJsonlMessage`. -/
structure IndexJsonlMessage where
  role : Option String
  content : Option JsonVal
  usage : Option IndexJsonlUsage
  model : Option String

/-- `IndexJsonlEntry`: the fields serde extracts from one JSONL line. -/
structure IndexJsonlEntry where
  entry_type : Option String
  message : Option IndexJsonlMessage
  timestamp : Option String
  session_id : Option String
  git_branch : Option String
  cwd : Option String

/-- One line of a log file as seen after `serde_json::from_str`: `none`
models a line that is blank or fails to deserialize (both are skipped by
`continue` in the source), `some e` a well-formed line. -/
abbrev LogLine := Option IndexJsonlEntry

/-- `SessionIndexEntry` from `sessions-index.json` side-band metadata. -/
structure SessionIndexEntry where
  session_id : String
  full_path : Option String
  first_prompt : Option String
  summary : Option String
  message_count : Option Nat
  created : Option String
  modified : Option String
  git_branch : Option String
  project_path : Option String

/-! ## Index documents -/

/-- A message document, one per content block (10 fields). -/
structure MsgDoc where
  session_id : String
  role : String
  content : String
  content_stored : String
  content_type : String
  timestamp : Option Int
  turn_index : Nat
  block_index : Nat
  msg_project : String
deriving DecidableEq, Repr

/-- A session document, one per log file (20 fields; dates are absent when
no timestamp parsed and the side-band metadata carried none). -/
structure SessionDoc where
  session_id : String
  project_path : String
  project_raw : String
  summary : String
  first_prompt : String
  git_branch : String
  model : String
  status : String
  jsonl_path : String
  message_count : Nat
  input_tokens : Nat
  output_tokens : Nat
  total_tokens : Nat
  created_at : Option Int
  modified_at : Option Int
  archived : Bool
  file_exists : Bool
  has_tool_use : Bool
  turn_depth : Nat
deriving DecidableEq, Repr

/-- A document in the shared index, discriminated by `doc_type`. -/
inductive Doc : Type where
  | session (s : SessionDoc) : Doc
  | message (m : MsgDoc) : Doc
deriving DecidableEq, Repr

/-- The `session_id` field shared by both document kinds. -/
def Doc.sessionId : Doc → String
  | .session s => s.session_id
  | .message m => m.session_id

/-- Is this a session document (`doc_type = "session"`)? -/
def Doc.isSession : Doc → Bool
  | .session _ => true
  | .message _ => false

/-- Project a document to its session payload, if any. -/
def Doc.asSession : Doc → Option SessionDoc
  | .session s => some s
  | .message _ => none

/-- Project a document to its message payload, if any. -/
def Doc.asMessage : Doc → Option MsgDoc
  | .session _ => none
  | .message m => some m

/-! ## The log parser (`parse_jsonl_to_documents`) -/

/-- The mutable locals of the parse loop in `parse_jsonl_to_documents`. -/
structure ParseState where
  session_id : String
  cwd : String
  git_branch : String
  model : String
  input_tokens : Nat
  output_tokens : Nat
  has_tool_use : Bool
  first_prompt : String
  summary : String
  first_timestamp : Option String
  last_timestamp : Option String
  turn_index : Nat
  message_count : Nat
  status : String
  message_docs : List MsgDoc

/-- The parse-state before any line and before side-band metadata. -/
def initBase : ParseState :=
  { session_id := "", cwd := "", git_branch := "", model := ""
    input_tokens := 0, output_tokens := 0, has_tool_use := false
    first_prompt := "", summary := "", first_timestamp := none
    last_timestamp := none, turn_index := 0, message_count := 0
    status := "idle", message_docs := [] }

/-- Pre-populate `first_prompt` from metadata. -/
def metaFirstPrompt (st : ParseState) : Option String → ParseState
  | some fp => { st with first_prompt := fp }
  | none => st

/-- Pre-populate `summary` from metadata. -/
def metaSummary (st : ParseState) : Option String → ParseState
  | some s => { st with summary := s }
  | none => st

/-- Pre-populate `git_branch` from metadata. -/
def metaBranch (st : ParseState) : Option String → ParseState
  | some gb => { st with git_branch := gb }
  | none => st

/-- Pre-populate `cwd` from metadata (`projectPath`). -/
def metaCwd (st : ParseState) : Option String → ParseState
  | some pp => { st with cwd := pp }
  | none => st

/-- Initial parse state, pre-populated from `sessions-index.json` metadata
when available. -/
def initState : Option SessionIndexEntry → ParseState
  | none => initBase
  | some m =>
    metaCwd (metaBranch (metaSummary (metaFirstPrompt initBase m.first_prompt)
      m.summary) m.git_branch) m.project_path

/-- `session_id` is assigned from a line while still empty. -/
def updSid (st : ParseState) : Option String → ParseState
  | some sid => if st.session_id = "" then { st with session_id := sid } else st
  | none => st

/-- `cwd` adopts the first non-empty occurrence. -/
def updCwd (st : ParseState) : Option String → ParseState
  | some c => if st.cwd = "" ∧ c ≠ "" then { st with cwd := c } else st
  | none => st

/-- `git_branch` adopts the first non-empty occurrence. -/
def updBranch (st : ParseState) : Option String → ParseState
  | some b => if st.git_branch = "" ∧ b ≠ "" then { st with git_branch := b } else st
  | none => st

/-- Timestamps track first and last seen. -/
def updTimestamps (st : ParseState) : Option String → ParseState
  | some ts =>
    { st with
      first_timestamp := if st.first_timestamp.isNone then some ts else st.first_timestamp
      last_timestamp := some ts }
  | none => st

/-- Session-level metadata extraction, run for every well-formed line
before the entry-type gate. -/
def updSessionMeta (st : ParseState) (entry : IndexJsonlEntry) : ParseState :=
  updTimestamps (updBranch (updCwd (updSid st entry.session_id) entry.cwd)
    entry.git_branch) entry.timestamp

/-- `input_tokens` is overwritten (latest wins). -/
def updUsageIn (st : ParseState) : Option Nat → ParseState
  | some it => { st with input_tokens := it }
  | none => st

/-- `output_tokens` accumulates. -/
def updUsageOut (st : ParseState) : Option Nat → ParseState
  | some ot => { st with output_tokens := st.output_tokens + ot }
  | none => st

/-- Token aggregation for one message. -/
def updUsage (st : ParseState) : Option IndexJsonlUsage → ParseState
  | none => st
  | some u => updUsageOut (updUsageIn st u.input_tokens) u.output_tokens

/-- `model` adopts the latest occurrence. -/
def updModel (st : ParseState) : Option String → ParseState
  | some m => { st with model := m }
  | none => st

/-- Status heuristic from the message role. -/
def updStatus (st : ParseState) (role : String) : ParseState :=
  if role = "user" then { st with status := "thinking" }
  else if role = "assistant" then { st with status := "idle" }
  else st

/-- `tool_use`/`tool_result` blocks flip `has_tool_use`. -/
def markToolUse (st : ParseState) (b : ContentBlock) : ParseState :=
  if b.content_type = "tool_use" ∨ b.content_type = "tool_result" then
    { st with has_tool_use := true }
  else st

/-- The message document created for one content block. -/
def mkMsgDoc (chronoParse : String → Option Int) (role tsStr : String)
    (st : ParseState) (b : ContentBlock) (bi : Nat) : MsgDoc :=
  { session_id := st.session_id
    role := role
    content := b.text
    content_stored := truncIfLong b.text
    content_type := b.content_type
    timestamp := parse_timestamp chronoParse tsStr
    turn_index := st.turn_index
    block_index := bi
    msg_project := st.cwd }

/-- Append the block's message document and bump `message_count`. -/
def pushBlock (chronoParse : String → Option Int) (role tsStr : String)
    (st : ParseState) (b : ContentBlock) (bi : Nat) : ParseState :=
  { st with
    message_docs := st.message_docs ++ [mkMsgDoc chronoParse role tsStr st b bi]
    message_count := st.message_count + 1 }

/-- Emit one message document per content block, threading the local
`block_index` counter. -/
def emitBlocks (chronoParse : String → Option Int) (role tsStr : String) :
    ParseState → Nat → List ContentBlock → ParseState
  | st, _, [] => st
  | st, bi, b :: rest =>
    emitBlocks chronoParse role tsStr
      (pushBlock chronoParse role tsStr (markToolUse st b) b bi) (bi + 1) rest

/-- Seed `first_prompt` from the first non-empty text block of a user
message, unless already set. -/
def seedFirstPrompt (st : ParseState) (role : String)
    (blocks : List ContentBlock) : ParseState :=
  if st.first_prompt = "" ∧ role = "user" then
    match blocks.find? (fun b => b.content_type == "text" && b.text != "") with
    | some b => { st with first_prompt := truncIfLong b.text }
    | none => st
  else st

/-- Content handling for a typed line: seed the first prompt, then emit the
blocks. -/
def updContent (chronoParse : String → Option Int) (st : ParseState)
    (entry : IndexJsonlEntry) (role : String) (content : JsonVal) : ParseState :=
  emitBlocks chronoParse role (entry.timestamp.getD "")
    (seedFirstPrompt st role (extract_content_blocks content)) 0
    (extract_content_blocks content)

/-- Content handling only when `message.content` is present. -/
def updContentOpt (chronoParse : String → Option Int) (st : ParseState)
    (entry : IndexJsonlEntry) (role : String) : Option JsonVal → ParseState
  | some content => updContent chronoParse st entry role content
  | none => st

/-- End-of-iteration turn counter bump for a typed line with a message. -/
def bumpTurn (st : ParseState) : ParseState :=
  { st with turn_index := st.turn_index + 1 }

/-- Message-level processing: entry-type gate, then model / usage / status /
content updates, then the per-turn counter. -/
def updMessage (chronoParse : String → Option Int) (st : ParseState)
    (entry : IndexJsonlEntry) : ParseState :=
  if entry.entry_type.getD "" = "user" ∨ entry.entry_type.getD "" = "assistant" ∨
      entry.entry_type.getD "" = "tool" then
    match entry.message with
    | none => st
    | some msg =>
      bumpTurn (updContentOpt chronoParse
        (updStatus (updUsage (updModel st msg.model) msg.usage)
          (msg.role.getD "unknown"))
        entry (msg.role.getD "unknown") msg.content)
  else st

/-- Process one line of the file: malformed and blank lines are skipped. -/
def processLine (chronoParse : String → Option Int) (st : ParseState) :
    LogLine → ParseState
  | none => st
  | some entry => updMessage chronoParse (updSessionMeta st entry) entry

/-- The parse loop over all lines of the file. -/
def processLines (chronoParse : String → Option Int) (st : ParseState)
    (lines : List LogLine) : ParseState :=
  lines.foldl (processLine chronoParse) st

/-- Build the session document from the final parse state: summary falls
back to `first_prompt`; `created_at`/`modified_at` come from the
first/last timestamps seen, with side-band metadata as fallback only when
no timestamp was seen at all. -/
def buildSessionDoc (chronoParse : String → Option Int) (path : String)
    (meta : Option SessionIndexEntry) (st : ParseState) : SessionDoc :=
  let summary := if st.summary = "" then st.first_prompt else st.summary
  let created_at :=
    match st.first_timestamp with
    | some ts => parse_timestamp chronoParse ts
    | none =>
      match meta with
      | some m =>
        match m.created with
        | some c => parse_timestamp chronoParse c
        | none => none
      | none => none
  let modified_at :=
    match st.last_timestamp with
    | some ts => parse_timestamp chronoParse ts
    | none =>
      match meta with
      | some m =>
        match m.modified with
        | some c => parse_timestamp chronoParse c
        | none => none
      | none => none
  { session_id := st.session_id
    project_path := st.cwd
    project_raw := st.cwd
    summary := summary
    first_prompt := st.first_prompt
    git_branch := st.git_branch
    model := st.model
    status := st.status
    jsonl_path := path
    message_count := st.message_count
    input_tokens := st.input_tokens
    output_tokens := st.output_tokens
    total_tokens := st.input_tokens + st.output_tokens
    created_at := created_at
    modified_at := modified_at
    archived := false
    file_exists := true
    has_tool_use := st.has_tool_use
    turn_depth := st.turn_index }

/-- `parse_jsonl_to_documents`: a file that cannot be opened (`none`) yields
the empty list; otherwise the session document comes first, followed by the
message documents in file order. -/
def parse_jsonl_to_documents (chronoParse : String → Option Int) (path : String)
    (file : Option (List LogLine)) (meta : Option SessionIndexEntry) : List Doc :=
  match file with
  | none => []
  | some lines =>
    let st := processLines chronoParse (initState meta) lines
    Doc.session (buildSessionDoc chronoParse path meta st) ::
      st.message_docs.map Doc.message

/-! ## Generic top-k collector model

The tantivy `TopDocs` collector returns documents ordered by a key; ties
are implementation-defined (spec §5), so any stable sort is a faithful
model.  Insertion sort keeps the membership lemma elementary. -/

/-- Insert `x` into `xs` in front of the first element it is `le`-before. -/
def insertSorted (le : α → α → Bool) (x : α) : List α → List α
  | [] => [x]
  | y :: ys => if le x y then x :: y :: ys else y :: insertSorted le x ys

/-- Sort by the given boolean order. -/
def sortByOrder (le : α → α → Bool) (xs : List α) : List α :=
  xs.foldr (insertSorted le) []

theorem mem_insertSorted {le : α → α → Bool} {x a : α} {xs : List α} :
    a ∈ insertSorted le x xs ↔ a = x ∨ a ∈ xs := by
  induction xs with
  | nil => simp [insertSorted]
  | cons y ys ih =>
    simp only [insertSorted]
    split
    · simp
    · simp only [List.mem_cons, ih]
      tauto

theorem mem_sortByOrder {le : α → α → Bool} {a : α} {xs : List α} :
    a ∈ sortByOrder le xs ↔ a ∈ xs := by
  induction xs with
  | nil => simp [sortByOrder]
  | cons y ys ih =>
    simp only [sortByOrder, List.foldr_cons] at *
    rw [mem_insertSorted, ih, List.mem_cons]

/-! ## Chrono / engine boundary -/

/-- External-library boundary: the chrono parsing and formatting calls the
search subsystem delegates to. -/
structure ChronoEnv where
  /-- The chrono parse attempts inside `parse_timestamp` (RFC 3339, then
  the naive format), collapsed to one partial function to epoch seconds. -/
  parseTs : String → Option Int
  /-- The chrono parse attempts inside `parse_date_filter` (RFC 3339, then
  `%Y-%m-%d` at midnight UTC). -/
  parseDate : String → Option Int
  /-- `format_tantivy_date` body: `chrono::DateTime::from_timestamp(..).to_rfc3339()`. -/
  fmtDate : Int → String

/-! ## Archive procedure (`watcher.rs`) -/

/-- `find_session_doc`: the first session document with the given
`session_id` (TopDocs limit 1 over two musts; all scores tie, so index
order decides). -/
def find_session_doc (session_id : String) (idx : List Doc) : Option SessionDoc :=
  (idx.filterMap (fun d =>
    match d with
    | .session s => if s.session_id = session_id then some s else none
    | .message _ => none)).head?

/-- `delete_term` on `session_id`: removes every document (session and
message) carrying that id. -/
def delete_term (session_id : String) (idx : List Doc) : List Doc :=
  idx.filter (fun d => d.sessionId ≠ session_id)

/-- The archived session document built by `archive_session`: every stored
field copied from the existing document, then `archived := true`,
`file_exists := false`, `has_tool_use` kept as observed. -/
def archiveDoc (session_id : String) (existing : SessionDoc) : SessionDoc :=
  { session_id := session_id
    project_path := existing.project_path
    project_raw := existing.project_raw
    summary := existing.summary
    first_prompt := existing.first_prompt
    git_branch := existing.git_branch
    model := existing.model
    status := existing.status
    jsonl_path := existing.jsonl_path
    message_count := existing.message_count
    input_tokens := existing.input_tokens
    output_tokens := existing.output_tokens
    total_tokens := existing.total_tokens
    created_at := existing.created_at
    modified_at := existing.modified_at
    archived := true
    file_exists := false
    has_tool_use := existing.has_tool_use
    turn_depth := existing.turn_depth }

/-- `archive_session`: find the existing session doc (silently `none` if
absent), delete every doc for the id, re-add the flagged session doc and
commit.  Returns the doc whose list item is emitted, plus the committed
index. -/
def archive_session (session_id : String) (idx : List Doc) :
    Option (SessionDoc × List Doc) :=
  match find_session_doc session_id idx with
  | none => none
  | some existing =>
    let newDoc := archiveDoc session_id existing
    some (newDoc, delete_term session_id idx ++ [Doc.session newDoc])

/-! ## Query layer (`queries.rs`) -/

/-- `SessionFilter`. -/
structure SessionFilter where
  project : Option String
  git_branch : Option String
  model : Option String
  include_archived : Bool
deriving DecidableEq, Repr

/-- `SearchFilter`. -/
structure SearchFilter where
  project : Option String
  include_tool_output : Bool
  limit : Option Nat
  date_from : Option String
  date_to : Option String
  role : Option String
deriving DecidableEq, Repr

/-- `SessionListItem` as emitted over the wire. -/
structure SessionListItem where
  session_id : String
  project_path : String
  summary : String
  first_prompt : String
  git_branch : String
  model : String
  status : String
  message_count : Nat
  total_tokens : Nat
  created_at : Option String
  modified_at : Option String
  has_tool_use : Bool
  file_exists : Bool
  archived : Bool
deriving DecidableEq, Repr

/-- `session_doc_to_list_item` from `watcher.rs`. -/
def session_doc_to_list_item (env : ChronoEnv) (s : SessionDoc) : SessionListItem :=
  { session_id := s.session_id
    project_path := s.project_path
    summary := s.summary
    first_prompt := s.first_prompt
    git_branch := s.git_branch
    model := s.model
    status := s.status
    message_count := s.message_count
    total_tokens := s.total_tokens
    created_at := s.created_at.map env.fmtDate
    modified_at := s.modified_at.map env.fmtDate
    has_tool_use := s.has_tool_use
    file_exists := s.file_exists
    archived := s.archived }

/-- `include_archived` of an optional filter (`unwrap_or(false)`). -/
def includeArchivedOf (filter : Option SessionFilter) : Bool :=
  (filter.map (·.include_archived)).getD false

/-- The boolean must-clauses of `list_sessions_query`: `doc_type=session`
plus the optional exact-match term filters. -/
def matchesSessionFilter (filter : Option SessionFilter) (s : SessionDoc) : Bool :=
  (match filter with
   | none => true
   | some f =>
     (match f.project with
      | some p => s.project_raw == p
      | none => true) &&
     (match f.git_branch with
      | some b => s.git_branch == b
      | none => true) &&
     (match f.model with
      | some m => s.model == m
      | none => true))

/-- Sort key for `order_by_fast_field("modified_at", Desc)`: documents
without a value read the fast-column default (epoch 0). -/
def modifiedKey (s : SessionDoc) : Int := s.modified_at.getD 0

/-- The documents the top-10000 collector hands back, ordered by
`modified_at` descending. -/
def collectedSessions (filter : Option SessionFilter) (idx : List Doc) :
    List SessionDoc :=
  (sortByOrder (fun a b => modifiedKey b ≤ modifiedKey a)
    ((idx.filterMap Doc.asSession).filter (matchesSessionFilter filter))).take 10000

/-- The post-filter of `list_sessions_query`: unless `include_archived`,
archived documents are skipped. -/
def retainedSessions (filter : Option SessionFilter) (idx : List Doc) :
    List SessionDoc :=
  (collectedSessions filter idx).filter
    (fun s => includeArchivedOf filter || !s.archived)

/-- `list_sessions_query`: map each retained doc to its list item. -/
def list_sessions_query (env : ChronoEnv) (filter : Option SessionFilter)
    (idx : List Doc) : List SessionListItem :=
  (retainedSessions filter idx).map (session_doc_to_list_item env)

/-! ### search -/

/-- `MatchSnippet`. -/
structure MatchSnippet where
  role : String
  content_type : String
  snippet : String
  timestamp : Option String
  turn_index : Nat
deriving DecidableEq, Repr

/-- `SearchResult` (BM25 scores, an engine-side `f32`, are modelled as
`Int`; only their ordering is observable). -/
structure SearchResult where
  session_id : String
  score : Int
  snippets : List MatchSnippet
  project_path : Option String
  summary : Option String
  model : Option String
  modified_at : Option String
  file_exists : Bool
deriving DecidableEq, Repr

/-- `include_tool_output` of an optional filter (`unwrap_or(false)`). -/
def includeToolOutputOf (filter : Option SearchFilter) : Bool :=
  (filter.map (·.include_tool_output)).getD false

/-- `filter.and_then(|f| f.limit).unwrap_or(50)`. -/
def effectiveLimitOf (filter : Option SearchFilter) : Nat :=
  (filter.bind (·.limit)).getD 50

/-- The phase-1 boolean query of `search_sessions_query` on message docs:
must `doc_type=message`, must the parsed user query (`queryMatch`, the
engine-side predicate on the indexed `content`), must-not
`content_type=tool_result` unless `include_tool_output`, plus the optional
project/role term filters. -/
def msgMatchesSearch (queryMatch : String → Bool) (filter : Option SearchFilter)
    (m : MsgDoc) : Bool :=
  queryMatch m.content &&
  (includeToolOutputOf filter || !(m.content_type == "tool_result")) &&
  (match filter.bind (·.project) with
   | some p => m.msg_project == p
   | none => true) &&
  (match filter.bind (·.role) with
   | some r => m.role == r
   | none => true)

/-- Phase-1 hits: matching message docs scored by BM25 (`score`), top
`3 × limit` by score descending. -/
def phase1Hits (queryMatch : String → Bool) (score : MsgDoc → Int)
    (filter : Option SearchFilter) (idx : List Doc) : List (Int × MsgDoc) :=
  (sortByOrder (fun a b => b.1 ≤ a.1)
    (((idx.filterMap Doc.asMessage).filter (msgMatchesSearch queryMatch filter)).map
      (fun m => (score m, m)))).take (effectiveLimitOf filter * 3)

/-- `parse_date_filter` — entirely chrono-library parsing. -/
def parse_date_filter (env : ChronoEnv) (s : String) : Option Int :=
  env.parseDate s

/-- The date post-filter applied to each hit: a missing message timestamp
passes; a present one must lie within the inclusive bounds. -/
def passesDateFilter (env : ChronoEnv) (filter : Option SearchFilter)
    (m : MsgDoc) : Bool :=
  (match (filter.bind (·.date_from)).bind (parse_date_filter env) with
   | some f =>
     match m.timestamp with
     | some ts => decide (f ≤ ts)
     | none => true
   | none => true) &&
  (match (filter.bind (·.date_to)).bind (parse_date_filter env) with
   | some t =>
     match m.timestamp with
     | some ts => decide (ts ≤ t)
     | none => true
   | none => true)

/-- The snippet built from one hit document. -/
def mkSnippet (env : ChronoEnv) (m : MsgDoc) : MatchSnippet :=
  { role := m.role
    content_type := m.content_type
    snippet := m.content_stored
    timestamp := m.timestamp.map env.fmtDate
    turn_index := m.turn_index }

/-- Per-session accumulator: best score seen and up to 3 snippets. -/
structure GroupEntry where
  best : Int
  snippets : List MatchSnippet
deriving DecidableEq, Repr

/-- `if entry.0 < score { entry.0 = score }`. -/
def bumpBest (e : GroupEntry) (score : Int) : GroupEntry :=
  if e.best < score then { e with best := score } else e

/-- `if entry.1.len() < 3 { entry.1.push(snippet) }`. -/
def pushSnippet (e : GroupEntry) (sn : MatchSnippet) : GroupEntry :=
  if e.snippets.length < 3 then { e with snippets := e.snippets ++ [sn] } else e

/-- `session_hits.entry(sid).or_insert_with(..)` followed by the best-score
and ≤3-snippet updates, on an association-list model of the map. -/
def groupInsert (sid : String) (score : Int) (sn : MatchSnippet) :
    List (String × GroupEntry) → List (String × GroupEntry)
  | [] => [(sid, ⟨score, [sn]⟩)]
  | (k, e) :: rest =>
    if k = sid then (k, pushSnippet (bumpBest e score) sn) :: rest
    else (k, e) :: groupInsert sid score sn rest

/-- The grouping loop of phase 1: date post-filter, skip hits with an empty
`session_id`, group by session keeping best score and up to 3 snippets. -/
def groupHits (env : ChronoEnv) (filter : Option SearchFilter) :
    List (String × GroupEntry) → List (Int × MsgDoc) → List (String × GroupEntry)
  | acc, [] => acc
  | acc, (score, m) :: rest =>
    if !passesDateFilter env filter m then groupHits env filter acc rest
    else if m.session_id = "" then groupHits env filter acc rest
    else groupHits env filter (groupInsert m.session_id score (mkSnippet env m) acc) rest

/-- `batch_fetch_sessions`: one boolean OR query for all hit session ids,
limit `k`; later duplicates overwrite in the map. -/
def batch_fetch_sessions (idx : List Doc) (sessionIds : List String) :
    List (String × SessionDoc) :=
  (((idx.filterMap Doc.asSession).filter
      (fun s => sessionIds.contains s.session_id)).take sessionIds.length).foldl
    (fun acc s => (acc.filter (fun kv => kv.1 ≠ s.session_id)) ++ [(s.session_id, s)]) []

/-- Map lookup. -/
def lookupSession (m : List (String × SessionDoc)) (sid : String) : Option SessionDoc :=
  (m.find? (fun kv => kv.1 == sid)).map (·.2)

/-- Phase 3: one `SearchResult` per grouped session, enriched from the
batch-fetched metadata. -/
def buildResult (env : ChronoEnv) (sessionMeta : List (String × SessionDoc))
    (g : String × GroupEntry) : SearchResult :=
  let meta := lookupSession sessionMeta g.1
  { session_id := g.1
    score := g.2.best
    snippets := g.2.snippets
    project_path := meta.map (·.project_path)
    summary := meta.map (·.summary)
    model := meta.map (·.model)
    modified_at := (meta.bind (·.modified_at)).map env.fmtDate
    file_exists := (meta.map (·.file_exists)).getD true }

/-- The grouped per-session hits of phase 1. -/
def searchGroups (env : ChronoEnv) (qm : String → Bool) (score : MsgDoc → Int)
    (filter : Option SearchFilter) (idx : List Doc) :
    List (String × GroupEntry) :=
  groupHits env filter [] (phase1Hits qm score filter idx)

/-- The phase-2 enrichment map for the grouped hits. -/
def searchMeta (env : ChronoEnv) (qm : String → Bool) (score : MsgDoc → Int)
    (filter : Option SearchFilter) (idx : List Doc) :
    List (String × SessionDoc) :=
  batch_fetch_sessions idx ((searchGroups env qm score filter idx).map (·.1))

/-- `search_sessions_query`.  `queryMatch` is `none` when
`parse_query(query_text)` fails (the query errors out), and otherwise the
engine's match predicate for the parsed query against the indexed
`content`; `score` is the engine's BM25 scorer. -/
def search_sessions_query (env : ChronoEnv) (queryMatch : Option (String → Bool))
    (score : MsgDoc → Int) (filter : Option SearchFilter) (idx : List Doc) :
    Except String (List SearchResult) :=
  match queryMatch with
  | none => .error "Query parse error"
  | some qm =>
    if (searchGroups env qm score filter idx).isEmpty then .ok []
    else
      .ok ((sortByOrder (fun a b => b.score ≤ a.score)
        ((searchGroups env qm score filter idx).map
          (buildResult env (searchMeta env qm score filter idx)))).take
        (effectiveLimitOf filter))

/-! ### index stats -/

/-- `total_sessions` of `get_index_stats_query`: count of
`doc_type=session` documents. -/
def total_sessions (idx : List Doc) : Nat :=
  (idx.filter Doc.isSession).length

/-- `total_messages`: count of `doc_type=message` documents. -/
def total_messages (idx : List Doc) : Nat :=
  (idx.filter (fun d => !d.isSession)).length

/-- `archived_sessions`: session docs post-filtered on the `archived`
column. -/
def archived_sessions (idx : List Doc) : Nat :=
  ((idx.filterMap Doc.asSession).filter (·.archived)).length

/-! ## Bulk indexer and schema gate (`indexer.rs`, `lib.rs`) -/

/-- Rust `Path::file_stem().unwrap_or("")`: the file name (after the last
separator) with the extension after the last dot removed; a name whose
only dot is leading keeps it. -/
def fileStem (p : String) : String :=
  let name := (p.splitOn "/").getLastD ""
  match name.splitOn "." with
  | [] => name
  | [_] => name
  | "" :: rest => if rest.length = 1 then name else String.intercalate "." ("" :: rest.dropLast)
  | parts => String.intercalate "." parts.dropLast

/-- A discovered corpus: each `.jsonl` path with its read outcome (`none`
when the file cannot be opened). -/
abbrev Corpus := List (String × Option (List LogLine))

/-- One producer-consumer round of `bulk_index`: parse the file with its
side-band metadata (keyed by file stem); an empty output is not sent, a
non-empty one is written document-by-document and counted as one session. -/
def bulkStep (chronoParse : String → Option Int)
    (indexMeta : String → Option SessionIndexEntry) (acc : Nat × List Doc)
    (file : String × Option (List LogLine)) : Nat × List Doc :=
  let docs := parse_jsonl_to_documents chronoParse file.1 file.2
    (indexMeta (fileStem file.1))
  if docs.isEmpty then acc else (acc.1 + 1, acc.2 ++ docs)

/-- `bulk_index` over a fresh index: parse every discovered file, funnel
non-empty outputs to the writer, count one session per funneled file.
Returns `(session_count, committed docs)`; the parallel producers commute
with the count and with multiset membership, so the sequential fold is a
faithful model. -/
def bulk_index (chronoParse : String → Option Int) (corpus : Corpus)
    (indexMeta : String → Option SessionIndexEntry) : Nat × List Doc :=
  corpus.foldl (bulkStep chronoParse indexMeta) (0, [])

/-- The sidecar `swarm-ui-meta.json`. -/
structure IndexMeta where
  schema_version : Nat
  indexed_at : String
  session_count : Nat
deriving DecidableEq, Repr

/-- `SCHEMA_VERSION` from `schema.rs`. -/
def SCHEMA_VERSION : Nat := 1

/-- The outcome of reading and deserializing the sidecar: `none` when
`fs::read_to_string` fails (absent or unreadable), `some none` when the
JSON does not deserialize, `some (some m)` on success. -/
abbrev SidecarRead := Option (Option IndexMeta)

/-- `schema_version_mismatch`: `true` when the sidecar is missing,
unreadable or unparseable, or records a version other than
`SCHEMA_VERSION`. -/
def schema_version_mismatch : SidecarRead → Bool
  | none => true
  | some none => true
  | some (some m) => m.schema_version != SCHEMA_VERSION

/-- The filesystem state `setup_tantivy_index` observes at startup. -/
structure SetupFs where
  index_dir_exists : Bool
  sidecar : SidecarRead
deriving DecidableEq, Repr

/-- The removal decision in `setup_tantivy_index` (`lib.rs`): the index
directory is removed wholesale iff it exists and the version gate fires. -/
def setup_removes_old_index (fs : SetupFs) : Bool :=
  fs.index_dir_exists && schema_version_mismatch fs.sidecar

/-- Whether the old index directory is still present after the version
gate, just before the index is (re)created and reopened. -/
def index_dir_exists_after_gate (fs : SetupFs) : Bool :=
  fs.index_dir_exists && !(setup_removes_old_index fs)

/-! ## Spec-side characterizations -/

/-- The claim's characterization of an unusable sidecar: absent or
unreadable, unparseable, or recording a version different from the
current `SCHEMA_VERSION`. -/
def specSidecarUnusable : SidecarRead → Bool
  | none => true
  | some none => true
  | some (some m) => m.schema_version != SCHEMA_VERSION

/-- The claim's count for P1: log files that can be opened and contain at
least one well-formed line carrying a `sessionId`. -/
def filesWithParseableSessionId (corpus : Corpus) : Nat :=
  (corpus.filter (fun f =>
    match f.2 with
    | none => false
    | some lines =>
      lines.any (fun l =>
        match l with
        | some e => e.session_id.isSome
        | none => false))).length

/-- Files of the corpus that can be opened (each of these yields a
non-empty parse output, hence exactly one session document). -/
def openableCount (corpus : Corpus) : Nat :=
  (corpus.filter (fun f => f.2.isSome)).length

/-! ## C3 — schema-version gate -/

/-- Claim C3: `schema_version_mismatch` returns true exactly when the
sidecar is absent, unreadable, unparseable, or records a version other
than `SCHEMA_VERSION`; and whenever it returns true at startup, the old
index directory is gone before the index is reopened. -/
theorem C3_schema_gate (s : SidecarRead) (fs : SetupFs) :
    schema_version_mismatch s = specSidecarUnusable s ∧
      (schema_version_mismatch fs.sidecar = true →
        index_dir_exists_after_gate fs = false) := by
  constructor
  · cases s with
    | none => rfl
    | some o => cases o <;> rfl
  · intro h
    simp [index_dir_exists_after_gate, setup_removes_old_index, h]

/-- Witness for C3 at a concrete startup state: an existing index
directory with a missing sidecar. -/
theorem C3_schema_gate_witness :
    schema_version_mismatch (some (some ⟨0, "t", 3⟩)) =
        specSidecarUnusable (some (some ⟨0, "t", 3⟩)) ∧
      index_dir_exists_after_gate ⟨true, none⟩ = false :=
  ⟨(C3_schema_gate (some (some ⟨0, "t", 3⟩)) ⟨true, none⟩).1,
   (C3_schema_gate (some (some ⟨0, "t", 3⟩)) ⟨true, none⟩).2 (by decide)⟩

/-! ## C4 — total_sessions after bulk indexing -/

theorem total_sessions_append (a b : List Doc) :
    total_sessions (a ++ b) = total_sessions a + total_sessions b := by
  simp [total_sessions, List.filter_append]

theorem filter_isSession_map_message (l : List MsgDoc) :
    (l.map Doc.message).filter Doc.isSession = [] := by
  induction l with
  | nil => rfl
  | cons m rest ih => simp [Doc.isSession, ih]

theorem total_sessions_parse (c : String → Option Int) (path : String)
    (lines : List LogLine) (meta : Option SessionIndexEntry) :
    total_sessions (parse_jsonl_to_documents c path (some lines) meta) = 1 := by
  simp [parse_jsonl_to_documents, total_sessions, List.filter_cons, Doc.isSession,
    filter_isSession_map_message]

theorem parse_some_ne_nil (c : String → Option Int) (path : String)
    (lines : List LogLine) (meta : Option SessionIndexEntry) :
    (parse_jsonl_to_documents c path (some lines) meta).isEmpty = false := by
  simp [parse_jsonl_to_documents]

theorem bulk_index_foldl_spec (c : String → Option Int)
    (meta : String → Option SessionIndexEntry) :
    ∀ (corpus : Corpus) (acc : Nat × List Doc),
      (corpus.foldl (bulkStep c meta) acc).1 = acc.1 + openableCount corpus ∧
      total_sessions (corpus.foldl (bulkStep c meta) acc).2 =
        total_sessions acc.2 + openableCount corpus := by
  intro corpus
  induction corpus with
  | nil => intro acc; simp [openableCount]
  | cons f rest ih =>
    intro acc
    obtain ⟨p, content⟩ := f
    cases content with
    | none =>
      have hstep : bulkStep c meta acc (p, none) = acc := by
        simp [bulkStep, parse_jsonl_to_documents]
      have hcount : openableCount ((p, none) :: rest) = openableCount rest := by
        simp [openableCount]
      simp only [List.foldl_cons, hstep, hcount]
      exact ih acc
    | some lines =>
      have hstep : bulkStep c meta acc (p, some lines) =
          (acc.1 + 1, acc.2 ++ parse_jsonl_to_documents c p (some lines)
            (meta (fileStem p))) := by
        simp [bulkStep, parse_some_ne_nil]
      have hcount : openableCount ((p, some lines) :: rest) =
          openableCount rest + 1 := by
        simp [openableCount, Nat.add_comm]
      simp only [List.foldl_cons, hstep, hcount]
      obtain ⟨h1, h2⟩ := ih (acc.1 + 1, acc.2 ++ parse_jsonl_to_documents c p
        (some lines) (meta (fileStem p)))
      refine ⟨by rw [h1]; omega, ?_⟩
      rw [h2, total_sessions_append, total_sessions_parse]
      omega

/-- Counterexample to claim C4 as stated: a corpus of one openable log
file whose single line is malformed (so no `sessionId` parses) still
yields `total_sessions = 1`, while the claim requires 0. -/
theorem C4_counterexample :
    total_sessions (bulk_index (fun _ => none)
        [("a.jsonl", some [(none : LogLine)])] (fun _ => none)).2 = 1 ∧
      filesWithParseableSessionId [("a.jsonl", some [(none : LogLine)])] = 0 := by
  constructor
  · rfl
  · rfl

/-- Claim C4 amended: after bulk indexing, `total_sessions` (and the
session count `bulk_index` returns) equals the number of log files that
could be opened — every openable file contributes exactly one session
document, whether or not any `sessionId` was parseable. -/
theorem C4_amended_total_sessions (c : String → Option Int) (corpus : Corpus)
    (meta : String → Option SessionIndexEntry) :
    total_sessions (bulk_index c corpus meta).2 = openableCount corpus ∧
      (bulk_index c corpus meta).1 = openableCount corpus := by
  obtain ⟨h1, h2⟩ := bulk_index_foldl_spec c meta corpus (0, [])
  exact ⟨by simpa [total_sessions] using h2, by simpa using h1⟩

/-! ## C5 — preview truncation -/

/-- A 501-byte ASCII string: the smallest kind of input on which the
truncation is supposed to act. -/
def a501 : String := String.mk (List.replicate 501 'a')

/-- A log line whose only content block renders to 501 bytes. -/
def entry5 : IndexJsonlEntry :=
  { entry_type := some "user"
    message := some
      { role := some "user"
        content := some (.str a501)
        usage := none
        model := none }
    timestamp := none
    session_id := some "s5"
    git_branch := none
    cwd := none }

set_option maxRecDepth 20000 in
/-- Claim C5 exposes a code bug: `truncate_at_char_boundary` keeps every
char whose starting byte index is `≤ max_bytes` (`take_while (*i <=
max_bytes)`), so on a 501-byte ASCII block the parser stores all 501
bytes as `content_stored` — contradicting both the claim and the
function's own doc comment ("at or before `max_bytes`"). -/
theorem C5_truncation_code_bug :
    strByteLen (truncate_at_char_boundary a501 500) = 501 ∧
      ((parse_jsonl_to_documents (fun _ => none) "p" (some [some entry5])
          none).filterMap Doc.asMessage).map
        (fun m => strByteLen m.content_stored) = [501] := by
  constructor
  · rfl
  · rfl

/-! ## C2, C8 — archive procedure -/

/-- All documents (of either kind) carrying the given `session_id`. -/
def docsFor (sid : String) (idx : List Doc) : List Doc :=
  idx.filter (fun d => d.sessionId == sid)

theorem docsFor_delete_term (sid : String) (idx : List Doc) :
    docsFor sid (delete_term sid idx) = [] := by
  simp only [docsFor, delete_term, List.filter_filter]
  rw [List.filter_eq_nil_iff]
  intro d _
  simp

theorem docsFor_after_archive (sid : String) (idx : List Doc) (nd : SessionDoc)
    (h : nd.session_id = sid) :
    docsFor sid (delete_term sid idx ++ [Doc.session nd]) = [Doc.session nd] := by
  have h1 := docsFor_delete_term sid idx
  simp only [docsFor, List.filter_append] at *
  rw [h1]
  simp [Doc.sessionId, h]

/-- Claim C2: archiving a session present in the index leaves exactly one
document for that `sessionId` — a session document with `archived = true`
and `file_exists = false`, no message documents — and preserves every
other stored session field. -/
theorem C2_archive_frame (sid : String) (idx : List Doc) (existing : SessionDoc)
    (h : find_session_doc sid idx = some existing) :
    ∃ newDoc idx2,
      archive_session sid idx = some (newDoc, idx2) ∧
      docsFor sid idx2 = [Doc.session newDoc] ∧
      newDoc.archived = true ∧
      newDoc.file_exists = false ∧
      newDoc.project_path = existing.project_path ∧
      newDoc.project_raw = existing.project_raw ∧
      newDoc.summary = existing.summary ∧
      newDoc.first_prompt = existing.first_prompt ∧
      newDoc.git_branch = existing.git_branch ∧
      newDoc.model = existing.model ∧
      newDoc.status = existing.status ∧
      newDoc.jsonl_path = existing.jsonl_path ∧
      newDoc.message_count = existing.message_count ∧
      newDoc.input_tokens = existing.input_tokens ∧
      newDoc.output_tokens = existing.output_tokens ∧
      newDoc.total_tokens = existing.total_tokens ∧
      newDoc.turn_depth = existing.turn_depth ∧
      newDoc.created_at = existing.created_at ∧
      newDoc.modified_at = existing.modified_at ∧
      newDoc.has_tool_use = existing.has_tool_use := by
  refine ⟨archiveDoc sid existing, delete_term sid idx ++
    [Doc.session (archiveDoc sid existing)], ?_, ?_, ?_⟩
  · simp [archive_session, h]
  · exact docsFor_after_archive sid idx _ rfl
  · exact ⟨rfl, rfl, rfl, rfl, rfl, rfl, rfl, rfl, rfl, rfl, rfl, rfl, rfl,
      rfl, rfl, rfl, rfl, rfl⟩

/-- Fixture: a fully populated session document. -/
def existing0 : SessionDoc :=
  { session_id := "sX", project_path := "/p", project_raw := "/p"
    summary := "sum", first_prompt := "hi", git_branch := "main"
    model := "M", status := "idle", jsonl_path := "/tmp/sX.jsonl"
    message_count := 2, input_tokens := 100, output_tokens := 50
    total_tokens := 150, created_at := some 10, modified_at := some 20
    archived := false, file_exists := true, has_tool_use := true
    turn_depth := 2 }

/-- Fixture: a message document for the same session. -/
def msg0 : MsgDoc :=
  { session_id := "sX", role := "user", content := "hello"
    content_stored := "hello", content_type := "text", timestamp := some 10
    turn_index := 0, block_index := 0, msg_project := "/p" }

/-- Fixture index: one session document plus one message document. -/
def idxArch : List Doc := [Doc.session existing0, Doc.message msg0]

/-- Witness for C2 on the fixture index. -/
theorem C2_archive_frame_witness :
    ∃ newDoc idx2,
      archive_session "sX" idxArch = some (newDoc, idx2) ∧
      docsFor "sX" idx2 = [Doc.session newDoc] ∧
      newDoc.archived = true ∧
      newDoc.file_exists = false ∧
      newDoc.project_path = existing0.project_path ∧
      newDoc.project_raw = existing0.project_raw ∧
      newDoc.summary = existing0.summary ∧
      newDoc.first_prompt = existing0.first_prompt ∧
      newDoc.git_branch = existing0.git_branch ∧
      newDoc.model = existing0.model ∧
      newDoc.status = existing0.status ∧
      newDoc.jsonl_path = existing0.jsonl_path ∧
      newDoc.message_count = existing0.message_count ∧
      newDoc.input_tokens = existing0.input_tokens ∧
      newDoc.output_tokens = existing0.output_tokens ∧
      newDoc.total_tokens = existing0.total_tokens ∧
      newDoc.turn_depth = existing0.turn_depth ∧
      newDoc.created_at = existing0.created_at ∧
      newDoc.modified_at = existing0.modified_at ∧
      newDoc.has_tool_use = existing0.has_tool_use :=
  C2_archive_frame "sX" idxArch existing0 (by decide)

theorem find_session_doc_after_archive (sid : String) (idx : List Doc)
    (nd : SessionDoc) (h : nd.session_id = sid) :
    find_session_doc sid (delete_term sid idx ++ [Doc.session nd]) = some nd := by
  simp only [find_session_doc, List.filterMap_append]
  have h1 : (delete_term sid idx).filterMap (fun d =>
      match d with
      | .session s => if s.session_id = sid then some s else none
      | .message _ => none) = [] := by
    rw [List.filterMap_eq_nil_iff]
    intro d hd
    simp only [delete_term, List.mem_filter] at hd
    cases d with
    | session s =>
      have : ¬(s.session_id = sid) := by
        simpa [Doc.sessionId] using hd.2
      simp [this]
    | message m => rfl
  rw [h1]
  simp [h]

theorem archiveDoc_idem (sid : String) (e : SessionDoc) :
    archiveDoc sid (archiveDoc sid e) = archiveDoc sid e := rfl

theorem delete_term_idem (sid : String) (idx : List Doc) (nd : SessionDoc)
    (h : nd.session_id = sid) :
    delete_term sid (delete_term sid idx ++ [Doc.session nd]) =
      delete_term sid idx := by
  simp only [delete_term, List.filter_append, List.filter_filter]
  simp [Doc.sessionId, h]

/-- Claim C8: the archive procedure is idempotent — a second archive of the
same session returns the same emitted document and leaves the index
unchanged. -/
theorem C8_archive_idempotent (sid : String) (idx : List Doc) (d1 : SessionDoc)
    (idx1 : List Doc) (h : archive_session sid idx = some (d1, idx1)) :
    archive_session sid idx1 = some (d1, idx1) := by
  unfold archive_session at h
  cases hfind : find_session_doc sid idx with
  | none => rw [hfind] at h; exact absurd h (by simp)
  | some existing =>
    rw [hfind] at h
    simp only [Option.some.injEq, Prod.mk.injEq] at h
    obtain ⟨hd, hidx⟩ := h
    subst hd
    subst hidx
    unfold archive_session
    rw [find_session_doc_after_archive sid idx _ rfl]
    simp only [archiveDoc_idem,
      delete_term_idem sid idx (archiveDoc sid existing) rfl]

/-- Witness for C8: archiving the already-archived fixture index again is a
no-op. -/
theorem C8_archive_idempotent_witness :
    archive_session "sX"
        (delete_term "sX" idxArch ++ [Doc.session (archiveDoc "sX" existing0)]) =
      some (archiveDoc "sX" existing0,
        delete_term "sX" idxArch ++ [Doc.session (archiveDoc "sX" existing0)]) :=
  C8_archive_idempotent "sX" idxArch (archiveDoc "sX" existing0)
    (delete_term "sX" idxArch ++ [Doc.session (archiveDoc "sX" existing0)]) rfl

/-! ## Parser projection lemmas -/

theorem updSid_input_tokens (st : ParseState) (o : Option String) :
    (updSid st o).input_tokens = st.input_tokens := by
  unfold updSid
  repeat' split
  all_goals rfl

theorem updCwd_input_tokens (st : ParseState) (o : Option String) :
    (updCwd st o).input_tokens = st.input_tokens := by
  unfold updCwd
  repeat' split
  all_goals rfl

theorem updBranch_input_tokens (st : ParseState) (o : Option String) :
    (updBranch st o).input_tokens = st.input_tokens := by
  unfold updBranch
  repeat' split
  all_goals rfl

theorem updTimestamps_input_tokens (st : ParseState) (o : Option String) :
    (updTimestamps st o).input_tokens = st.input_tokens := by
  unfold updTimestamps
  repeat' split
  all_goals rfl

theorem updSid_output_tokens (st : ParseState) (o : Option String) :
    (updSid st o).output_tokens = st.output_tokens := by
  unfold updSid
  repeat' split
  all_goals rfl

theorem updCwd_output_tokens (st : ParseState) (o : Option String) :
    (updCwd st o).output_tokens = st.output_tokens := by
  unfold updCwd
  repeat' split
  all_goals rfl

theorem updBranch_output_tokens (st : ParseState) (o : Option String) :
    (updBranch st o).output_tokens = st.output_tokens := by
  unfold updBranch
  repeat' split
  all_goals rfl

theorem updTimestamps_output_tokens (st : ParseState) (o : Option String) :
    (updTimestamps st o).output_tokens = st.output_tokens := by
  unfold updTimestamps
  repeat' split
  all_goals rfl

theorem updCwd_session_id (st : ParseState) (o : Option String) :
    (updCwd st o).session_id = st.session_id := by
  unfold updCwd
  repeat' split
  all_goals rfl

theorem updBranch_session_id (st : ParseState) (o : Option String) :
    (updBranch st o).session_id = st.session_id := by
  unfold updBranch
  repeat' split
  all_goals rfl

theorem updTimestamps_session_id (st : ParseState) (o : Option String) :
    (updTimestamps st o).session_id = st.session_id := by
  unfold updTimestamps
  repeat' split
  all_goals rfl

theorem updSessionMeta_input_tokens (st : ParseState) (e : IndexJsonlEntry) :
    (updSessionMeta st e).input_tokens = st.input_tokens := by
  unfold updSessionMeta
  rw [updTimestamps_input_tokens, updBranch_input_tokens, updCwd_input_tokens,
    updSid_input_tokens]

theorem updSessionMeta_output_tokens (st : ParseState) (e : IndexJsonlEntry) :
    (updSessionMeta st e).output_tokens = st.output_tokens := by
  unfold updSessionMeta
  rw [updTimestamps_output_tokens, updBranch_output_tokens,
    updCwd_output_tokens, updSid_output_tokens]

theorem updSessionMeta_session_id_of_none (st : ParseState) (e : IndexJsonlEntry)
    (h : e.session_id = none) :
    (updSessionMeta st e).session_id = st.session_id := by
  unfold updSessionMeta
  rw [updTimestamps_session_id, updBranch_session_id, updCwd_session_id, h]
  rfl

theorem updUsageIn_input_tokens (st : ParseState) (o : Option Nat) :
    (updUsageIn st o).input_tokens = o.getD st.input_tokens := by
  cases o <;> rfl

theorem updUsageIn_output_tokens (st : ParseState) (o : Option Nat) :
    (updUsageIn st o).output_tokens = st.output_tokens := by
  cases o <;> rfl

theorem updUsageIn_session_id (st : ParseState) (o : Option Nat) :
    (updUsageIn st o).session_id = st.session_id := by
  cases o <;> rfl

theorem updUsageOut_input_tokens (st : ParseState) (o : Option Nat) :
    (updUsageOut st o).input_tokens = st.input_tokens := by
  cases o <;> rfl

theorem updUsageOut_output_tokens (st : ParseState) (o : Option Nat) :
    (updUsageOut st o).output_tokens = st.output_tokens + o.getD 0 := by
  cases o <;> simp [updUsageOut]

theorem updUsageOut_session_id (st : ParseState) (o : Option Nat) :
    (updUsageOut st o).session_id = st.session_id := by
  cases o <;> rfl

theorem updUsage_input_tokens (st : ParseState) (u : Option IndexJsonlUsage) :
    (updUsage st u).input_tokens =
      ((u.bind (·.input_tokens)).getD st.input_tokens) := by
  cases u with
  | none => rfl
  | some v =>
    simp [updUsage, updUsageOut_input_tokens, updUsageIn_input_tokens]

theorem updUsage_output_tokens (st : ParseState) (u : Option IndexJsonlUsage) :
    (updUsage st u).output_tokens =
      st.output_tokens + ((u.bind (·.output_tokens)).getD 0) := by
  cases u with
  | none => rfl
  | some v =>
    simp [updUsage, updUsageOut_output_tokens, updUsageIn_output_tokens]

theorem updUsage_session_id (st : ParseState) (u : Option IndexJsonlUsage) :
    (updUsage st u).session_id = st.session_id := by
  cases u with
  | none => rfl
  | some v =>
    simp [updUsage, updUsageOut_session_id, updUsageIn_session_id]

theorem updModel_input_tokens (st : ParseState) (o : Option String) :
    (updModel st o).input_tokens = st.input_tokens := by
  cases o <;> rfl

theorem updModel_output_tokens (st : ParseState) (o : Option String) :
    (updModel st o).output_tokens = st.output_tokens := by
  cases o <;> rfl

theorem updModel_session_id (st : ParseState) (o : Option String) :
    (updModel st o).session_id = st.session_id := by
  cases o <;> rfl

theorem updStatus_input_tokens (st : ParseState) (r : String) :
    (updStatus st r).input_tokens = st.input_tokens := by
  unfold updStatus
  repeat' split
  all_goals rfl

theorem updStatus_output_tokens (st : ParseState) (r : String) :
    (updStatus st r).output_tokens = st.output_tokens := by
  unfold updStatus
  repeat' split
  all_goals rfl

theorem updStatus_session_id (st : ParseState) (r : String) :
    (updStatus st r).session_id = st.session_id := by
  unfold updStatus
  repeat' split
  all_goals rfl

theorem markToolUse_input_tokens (st : ParseState) (b : ContentBlock) :
    (markToolUse st b).input_tokens = st.input_tokens := by
  unfold markToolUse
  split <;> rfl

theorem markToolUse_output_tokens (st : ParseState) (b : ContentBlock) :
    (markToolUse st b).output_tokens = st.output_tokens := by
  unfold markToolUse
  split <;> rfl

theorem markToolUse_session_id (st : ParseState) (b : ContentBlock) :
    (markToolUse st b).session_id = st.session_id := by
  unfold markToolUse
  split <;> rfl

theorem emitBlocks_input_tokens (c : String → Option Int) (role ts : String) :
    ∀ (blocks : List ContentBlock) (st : ParseState) (bi : Nat),
      (emitBlocks c role ts st bi blocks).input_tokens = st.input_tokens := by
  intro blocks
  induction blocks with
  | nil => intro st bi; rfl
  | cons b rest ih =>
    intro st bi
    show (emitBlocks c role ts _ _ rest).input_tokens = _
    rw [ih]
    show (markToolUse st b).input_tokens = _
    rw [markToolUse_input_tokens]

theorem emitBlocks_output_tokens (c : String → Option Int) (role ts : String) :
    ∀ (blocks : List ContentBlock) (st : ParseState) (bi : Nat),
      (emitBlocks c role ts st bi blocks).output_tokens = st.output_tokens := by
  intro blocks
  induction blocks with
  | nil => intro st bi; rfl
  | cons b rest ih =>
    intro st bi
    show (emitBlocks c role ts _ _ rest).output_tokens = _
    rw [ih]
    show (markToolUse st b).output_tokens = _
    rw [markToolUse_output_tokens]

theorem emitBlocks_session_id (c : String → Option Int) (role ts : String) :
    ∀ (blocks : List ContentBlock) (st : ParseState) (bi : Nat),
      (emitBlocks c role ts st bi blocks).session_id = st.session_id := by
  intro blocks
  induction blocks with
  | nil => intro st bi; rfl
  | cons b rest ih =>
    intro st bi
    show (emitBlocks c role ts _ _ rest).session_id = _
    rw [ih]
    show (markToolUse st b).session_id = _
    rw [markToolUse_session_id]

theorem seedFirstPrompt_input_tokens (st : ParseState) (role : String)
    (blocks : List ContentBlock) :
    (seedFirstPrompt st role blocks).input_tokens = st.input_tokens := by
  unfold seedFirstPrompt
  repeat' split
  all_goals rfl

theorem seedFirstPrompt_output_tokens (st : ParseState) (role : String)
    (blocks : List ContentBlock) :
    (seedFirstPrompt st role blocks).output_tokens = st.output_tokens := by
  unfold seedFirstPrompt
  repeat' split
  all_goals rfl

theorem seedFirstPrompt_session_id (st : ParseState) (role : String)
    (blocks : List ContentBlock) :
    (seedFirstPrompt st role blocks).session_id = st.session_id := by
  unfold seedFirstPrompt
  repeat' split
  all_goals rfl

theorem updContent_input_tokens (c : String → Option Int) (st : ParseState)
    (e : IndexJsonlEntry) (role : String) (content : JsonVal) :
    (updContent c st e role content).input_tokens = st.input_tokens := by
  unfold updContent
  rw [emitBlocks_input_tokens, seedFirstPrompt_input_tokens]

theorem updContent_output_tokens (c : String → Option Int) (st : ParseState)
    (e : IndexJsonlEntry) (role : String) (content : JsonVal) :
    (updContent c st e role content).output_tokens = st.output_tokens := by
  unfold updContent
  rw [emitBlocks_output_tokens, seedFirstPrompt_output_tokens]

theorem updContent_session_id (c : String → Option Int) (st : ParseState)
    (e : IndexJsonlEntry) (role : String) (content : JsonVal) :
    (updContent c st e role content).session_id = st.session_id := by
  unfold updContent
  rw [emitBlocks_session_id, seedFirstPrompt_session_id]

theorem updContentOpt_input_tokens (c : String → Option Int) (st : ParseState)
    (e : IndexJsonlEntry) (role : String) (o : Option JsonVal) :
    (updContentOpt c st e role o).input_tokens = st.input_tokens := by
  cases o with
  | none => rfl
  | some v => exact updContent_input_tokens c st e role v

theorem updContentOpt_output_tokens (c : String → Option Int) (st : ParseState)
    (e : IndexJsonlEntry) (role : String) (o : Option JsonVal) :
    (updContentOpt c st e role o).output_tokens = st.output_tokens := by
  cases o with
  | none => rfl
  | some v => exact updContent_output_tokens c st e role v

theorem updContentOpt_session_id (c : String → Option Int) (st : ParseState)
    (e : IndexJsonlEntry) (role : String) (o : Option JsonVal) :
    (updContentOpt c st e role o).session_id = st.session_id := by
  cases o with
  | none => rfl
  | some v => exact updContent_session_id c st e role v

theorem bumpTurn_input_tokens (st : ParseState) :
    (bumpTurn st).input_tokens = st.input_tokens := rfl

theorem bumpTurn_output_tokens (st : ParseState) :
    (bumpTurn st).output_tokens = st.output_tokens := rfl

theorem bumpTurn_session_id (st : ParseState) :
    (bumpTurn st).session_id = st.session_id := rfl

/-! ## Spec-side token extraction (the claim's words for I5) -/

/-- The `usage.input_tokens` value a `{user,assistant,tool}`-typed entry
contributes, if any. -/
def entryInputToken (e : IndexJsonlEntry) : Option Nat :=
  if e.entry_type.getD "" = "user" ∨ e.entry_type.getD "" = "assistant" ∨
      e.entry_type.getD "" = "tool" then
    (e.message.bind (·.usage)).bind (·.input_tokens)
  else none

/-- The `usage.output_tokens` value a typed entry contributes, if any. -/
def entryOutputToken (e : IndexJsonlEntry) : Option Nat :=
  if e.entry_type.getD "" = "user" ∨ e.entry_type.getD "" = "assistant" ∨
      e.entry_type.getD "" = "tool" then
    (e.message.bind (·.usage)).bind (·.output_tokens)
  else none

/-- Lift to a possibly-malformed line. -/
def lineInputToken : LogLine → Option Nat
  | none => none
  | some e => entryInputToken e

/-- Lift to a possibly-malformed line. -/
def lineOutputToken : LogLine → Option Nat
  | none => none
  | some e => entryOutputToken e

/-- Last element of a list, with a default: the "last value observed". -/
def lastOr : List Nat → Nat → Nat
  | [], d => d
  | x :: xs, _ => lastOr xs x

/-- The claim's `inputTokens`: the last `usage.input_tokens` observed among
typed lines (0 when none is observed). -/
def specLastInputTokens (lines : List LogLine) : Nat :=
  lastOr (lines.filterMap lineInputToken) 0

/-- The claim's `outputTokens`: the sum of `usage.output_tokens` over all
typed lines. -/
def specSumOutputTokens (lines : List LogLine) : Nat :=
  (lines.filterMap lineOutputToken).sum

theorem updMessage_input_tokens (c : String → Option Int) (st : ParseState)
    (e : IndexJsonlEntry) :
    (updMessage c st e).input_tokens =
      (entryInputToken e).getD st.input_tokens := by
  unfold updMessage entryInputToken
  split
  · rename_i htyped
    cases hm : e.message with
    | none => simp [htyped]
    | some msg =>
      rw [bumpTurn_input_tokens, updContentOpt_input_tokens,
        updStatus_input_tokens, updUsage_input_tokens, updModel_input_tokens]
      simp [htyped]
  · rename_i htyped
    simp [htyped]

theorem updMessage_output_tokens (c : String → Option Int) (st : ParseState)
    (e : IndexJsonlEntry) :
    (updMessage c st e).output_tokens =
      st.output_tokens + ((entryOutputToken e).getD 0) := by
  unfold updMessage entryOutputToken
  split
  · rename_i htyped
    cases hm : e.message with
    | none => simp [htyped]
    | some msg =>
      rw [bumpTurn_output_tokens, updContentOpt_output_tokens,
        updStatus_output_tokens, updUsage_output_tokens, updModel_output_tokens]
      simp [htyped]
  · rename_i htyped
    simp [htyped]

theorem updMessage_session_id (c : String → Option Int) (st : ParseState)
    (e : IndexJsonlEntry) :
    (updMessage c st e).session_id = st.session_id := by
  unfold updMessage
  split
  · cases hm : e.message with
    | none => rfl
    | some msg =>
      rw [bumpTurn_session_id, updContentOpt_session_id, updStatus_session_id,
        updUsage_session_id, updModel_session_id]
  · rfl

theorem processLine_input_tokens (c : String → Option Int) (st : ParseState)
    (l : LogLine) :
    (processLine c st l).input_tokens = (lineInputToken l).getD st.input_tokens := by
  cases l with
  | none => rfl
  | some e =>
    show (updMessage c (updSessionMeta st e) e).input_tokens = _
    rw [updMessage_input_tokens, updSessionMeta_input_tokens]
    rfl

theorem processLine_output_tokens (c : String → Option Int) (st : ParseState)
    (l : LogLine) :
    (processLine c st l).output_tokens =
      st.output_tokens + ((lineOutputToken l).getD 0) := by
  cases l with
  | none => simp [processLine, lineOutputToken]
  | some e =>
    show (updMessage c (updSessionMeta st e) e).output_tokens = _
    rw [updMessage_output_tokens, updSessionMeta_output_tokens]
    rfl

theorem processLines_input_tokens (c : String → Option Int) :
    ∀ (lines : List LogLine) (st : ParseState),
      (processLines c st lines).input_tokens =
        lastOr (lines.filterMap lineInputToken) st.input_tokens := by
  intro lines
  induction lines with
  | nil => intro st; rfl
  | cons l rest ih =>
    intro st
    show (processLines c (processLine c st l) rest).input_tokens = _
    rw [ih, List.filterMap_cons]
    cases h : lineInputToken l with
    | none => rw [processLine_input_tokens, h]; rfl
    | some it =>
      rw [processLine_input_tokens, h]
      rfl

theorem processLines_output_tokens (c : String → Option Int) :
    ∀ (lines : List LogLine) (st : ParseState),
      (processLines c st lines).output_tokens =
        st.output_tokens + (lines.filterMap lineOutputToken).sum := by
  intro lines
  induction lines with
  | nil => intro st; rfl
  | cons l rest ih =>
    intro st
    show (processLines c (processLine c st l) rest).output_tokens = _
    rw [ih, List.filterMap_cons, processLine_output_tokens]
    cases h : lineOutputToken l with
    | none => simp
    | some o => simp [List.sum_cons]; omega

theorem metaUpd_input_tokens (st : ParseState) (o : Option String) :
    (metaCwd st o).input_tokens = st.input_tokens ∧
      (metaBranch st o).input_tokens = st.input_tokens ∧
      (metaSummary st o).input_tokens = st.input_tokens ∧
      (metaFirstPrompt st o).input_tokens = st.input_tokens := by
  cases o <;> exact ⟨rfl, rfl, rfl, rfl⟩

theorem metaUpd_output_tokens (st : ParseState) (o : Option String) :
    (metaCwd st o).output_tokens = st.output_tokens ∧
      (metaBranch st o).output_tokens = st.output_tokens ∧
      (metaSummary st o).output_tokens = st.output_tokens ∧
      (metaFirstPrompt st o).output_tokens = st.output_tokens := by
  cases o <;> exact ⟨rfl, rfl, rfl, rfl⟩

theorem metaUpd_session_id (st : ParseState) (o : Option String) :
    (metaCwd st o).session_id = st.session_id ∧
      (metaBranch st o).session_id = st.session_id ∧
      (metaSummary st o).session_id = st.session_id ∧
      (metaFirstPrompt st o).session_id = st.session_id := by
  cases o <;> exact ⟨rfl, rfl, rfl, rfl⟩

theorem initState_input_tokens (meta : Option SessionIndexEntry) :
    (initState meta).input_tokens = 0 := by
  cases meta with
  | none => rfl
  | some m =>
    show (metaCwd _ _).input_tokens = 0
    rw [(metaUpd_input_tokens _ _).1, (metaUpd_input_tokens _ _).2.1,
      (metaUpd_input_tokens _ _).2.2.1, (metaUpd_input_tokens _ _).2.2.2]
    rfl

theorem initState_output_tokens (meta : Option SessionIndexEntry) :
    (initState meta).output_tokens = 0 := by
  cases meta with
  | none => rfl
  | some m =>
    show (metaCwd _ _).output_tokens = 0
    rw [(metaUpd_output_tokens _ _).1, (metaUpd_output_tokens _ _).2.1,
      (metaUpd_output_tokens _ _).2.2.1, (metaUpd_output_tokens _ _).2.2.2]
    rfl

theorem initState_session_id (meta : Option SessionIndexEntry) :
    (initState meta).session_id = "" := by
  cases meta with
  | none => rfl
  | some m =>
    show (metaCwd _ _).session_id = ""
    rw [(metaUpd_session_id _ _).1, (metaUpd_session_id _ _).2.1,
      (metaUpd_session_id _ _).2.2.1, (metaUpd_session_id _ _).2.2.2]
    rfl

/-! ## C1 — token aggregation -/

/-- Claim C1: on every parsed log file, the session document's
`inputTokens` is the last `usage.input_tokens` observed among
`{user,assistant,tool}`-typed lines, `outputTokens` is the sum of
`usage.output_tokens` over those lines, and `totalTokens` is their sum. -/
theorem C1_token_aggregation (c : String → Option Int) (path : String)
    (meta : Option SessionIndexEntry) (lines : List LogLine) (s : SessionDoc)
    (rest : List Doc)
    (h : parse_jsonl_to_documents c path (some lines) meta =
      Doc.session s :: rest) :
    s.input_tokens = specLastInputTokens lines ∧
      s.output_tokens = specSumOutputTokens lines ∧
      s.total_tokens = s.input_tokens + s.output_tokens := by
  have hs : s = buildSessionDoc c path meta
      (processLines c (initState meta) lines) := by
    have := h
    unfold parse_jsonl_to_documents at this
    exact (Doc.session.inj (List.cons.inj this).1).symm
  subst hs
  refine ⟨?_, ?_, rfl⟩
  · show (processLines c (initState meta) lines).input_tokens = _
    rw [processLines_input_tokens, initState_input_tokens]
    rfl
  · show (processLines c (initState meta) lines).output_tokens = _
    rw [processLines_output_tokens, initState_output_tokens]
    simp [specSumOutputTokens]

/-- Fixture: an assistant line carrying usage numbers. -/
def entryTok : IndexJsonlEntry :=
  { entry_type := some "assistant"
    message := some
      { role := some "assistant", content := none
        usage := some ⟨some 100, some 50⟩, model := some "M" }
    timestamp := none, session_id := some "S", git_branch := none
    cwd := none }

/-- Witness for C1 on a one-line log file. -/
theorem C1_token_aggregation_witness :
    parse_jsonl_to_documents (fun _ => none) "p" (some [some entryTok]) none =
        Doc.session (buildSessionDoc (fun _ => none) "p" none
          (processLines (fun _ => none) (initState none) [some entryTok])) ::
          ((processLines (fun _ => none) (initState none)
            [some entryTok]).message_docs.map Doc.message) ∧
      ((buildSessionDoc (fun _ => none) "p" none
          (processLines (fun _ => none) (initState none)
            [some entryTok])).input_tokens =
          specLastInputTokens [some entryTok] ∧
        (buildSessionDoc (fun _ => none) "p" none
          (processLines (fun _ => none) (initState none)
            [some entryTok])).output_tokens =
          specSumOutputTokens [some entryTok] ∧
        (buildSessionDoc (fun _ => none) "p" none
          (processLines (fun _ => none) (initState none)
            [some entryTok])).total_tokens =
          (buildSessionDoc (fun _ => none) "p" none
            (processLines (fun _ => none) (initState none)
              [some entryTok])).input_tokens +
          (buildSessionDoc (fun _ => none) "p" none
            (processLines (fun _ => none) (initState none)
              [some entryTok])).output_tokens) :=
  ⟨rfl, C1_token_aggregation (fun _ => none) "p" none [some entryTok] _ _ rfl⟩

/-! ## C9 — parser totality -/

theorem processLines_skip_malformed (c : String → Option Int) :
    ∀ (lines : List LogLine) (st : ParseState),
      processLines c st lines = processLines c st (lines.filter (·.isSome)) := by
  intro lines
  induction lines with
  | nil => intro st; rfl
  | cons l rest ih =>
    intro st
    cases l with
    | none =>
      show processLines c (processLine c st none) rest = _
      rw [ih]
      rfl
    | some e =>
      show processLines c (processLine c st (some e)) rest = _
      rw [ih]
      rfl

/-- Claim C9: the parser is total — an unopenable file yields the empty
list, and on any openable content the result is defined and unchanged by
deleting the malformed (skipped) lines. -/
theorem C9_parser_total (c : String → Option Int) (path : String)
    (meta : Option SessionIndexEntry) :
    parse_jsonl_to_documents c path none meta = [] ∧
      ∀ lines, parse_jsonl_to_documents c path (some lines) meta =
        parse_jsonl_to_documents c path (some (lines.filter (·.isSome))) meta := by
  refine ⟨rfl, fun lines => ?_⟩
  exact congrArg
    (fun st => Doc.session (buildSessionDoc c path meta st) ::
      st.message_docs.map Doc.message)
    (processLines_skip_malformed c lines (initState meta))

/-! ## C10 — session doc always first -/

theorem processLines_session_id (c : String → Option Int) :
    ∀ (lines : List LogLine) (st : ParseState),
      (∀ l ∈ lines, ∀ e, l = some e → e.session_id = none) →
      (processLines c st lines).session_id = st.session_id := by
  intro lines
  induction lines with
  | nil => intro st _; rfl
  | cons l rest ih =>
    intro st hall
    show (processLines c (processLine c st l) rest).session_id = _
    rw [ih _ (fun l2 hl2 e he => hall l2 (List.mem_cons_of_mem _ hl2) e he)]
    cases l with
    | none => rfl
    | some e =>
      have hsid : e.session_id = none :=
        hall (some e) (List.mem_cons_self _ _) e rfl
      show (updMessage c (updSessionMeta st e) e).session_id = _
      rw [updMessage_session_id, updSessionMeta_session_id_of_none st e hsid]

/-- Claim C10: every openable file parses to a non-empty list headed by a
session document with `archived = false` and `fileExists = true`; when no
line carries a parseable `sessionId`, that session document's `sessionId`
is the empty string. -/
theorem C10_session_doc_first (c : String → Option Int) (path : String)
    (meta : Option SessionIndexEntry) (lines : List LogLine) :
    (∃ s rest, parse_jsonl_to_documents c path (some lines) meta =
        Doc.session s :: rest ∧ s.archived = false ∧ s.file_exists = true) ∧
      ((∀ l ∈ lines, ∀ e, l = some e → e.session_id = none) →
        ∃ s rest, parse_jsonl_to_documents c path (some lines) meta =
          Doc.session s :: rest ∧ s.archived = false ∧ s.file_exists = true ∧
            s.session_id = "") := by
  constructor
  · exact ⟨buildSessionDoc c path meta (processLines c (initState meta) lines),
      (processLines c (initState meta) lines).message_docs.map Doc.message,
      rfl, rfl, rfl⟩
  · intro hall
    refine ⟨buildSessionDoc c path meta (processLines c (initState meta) lines),
      (processLines c (initState meta) lines).message_docs.map Doc.message,
      rfl, rfl, rfl, ?_⟩
    show (processLines c (initState meta) lines).session_id = ""
    rw [processLines_session_id c lines _ hall, initState_session_id]

/-- Fixture: a well-formed user line with no `sessionId` field. -/
def entryNoSid : IndexJsonlEntry :=
  { entry_type := some "user", message := none, timestamp := some "2026-01-01"
    session_id := none, git_branch := none, cwd := none }

/-- Witness for C10 on a one-line file without any `sessionId`. -/
theorem C10_session_doc_first_witness :
    (∃ s rest, parse_jsonl_to_documents (fun _ => none) "p"
        (some [some entryNoSid]) none = Doc.session s :: rest ∧
        s.archived = false ∧ s.file_exists = true) ∧
      (∃ s rest, parse_jsonl_to_documents (fun _ => none) "p"
        (some [some entryNoSid]) none = Doc.session s :: rest ∧
        s.archived = false ∧ s.file_exists = true ∧ s.session_id = "") :=
  ⟨(C10_session_doc_first (fun _ => none) "p" none [some entryNoSid]).1,
   (C10_session_doc_first (fun _ => none) "p" none [some entryNoSid]).2
     (by
       intro l hl e he
       have hle : l = some entryNoSid := by simpa using hl
       subst hle
       injection he with h2
       subst h2
       rfl)⟩

/-! ## C6 — archived filtering in listSessions -/

/-- Claim C6: among the session documents the top-10000 collector hands
back for the given filter, a document survives the post-filter (and hence
appears in the `listSessions` output) iff it is not archived or the filter
asks for archived documents. -/
theorem C6_archived_post_filter (filter : Option SessionFilter) (idx : List Doc)
    (s : SessionDoc) (h : s ∈ collectedSessions filter idx) :
    s ∈ retainedSessions filter idx ↔
      (s.archived = false ∨ includeArchivedOf filter = true) := by
  unfold retainedSessions
  simp only [List.mem_filter, h, true_and, Bool.or_eq_true, Bool.not_eq_true']
  tauto

/-- Fixture: an archived session document. -/
def sessArch : SessionDoc :=
  { existing0 with session_id := "sA", archived := true, file_exists := false }

/-- Witness for C6 on a one-document index with no filter. -/
theorem C6_archived_post_filter_witness :
    sessArch ∈ retainedSessions none [Doc.session sessArch] ↔
      (sessArch.archived = false ∨ includeArchivedOf none = true) :=
  C6_archived_post_filter none [Doc.session sessArch] sessArch (by decide)

/-! ## C7 — tool_result exclusion in search -/

theorem phase1Hits_not_tool_result (qm : String → Bool) (score : MsgDoc → Int)
    (filter : Option SearchFilter) (idx : List Doc)
    (h : includeToolOutputOf filter = false) :
    ∀ hit ∈ phase1Hits qm score filter idx,
      (hit : Int × MsgDoc).2.content_type ≠ "tool_result" := by
  intro hit hmem
  unfold phase1Hits at hmem
  have h2 := List.take_subset _ _ hmem
  rw [mem_sortByOrder, List.mem_map] at h2
  obtain ⟨m, hm, heq⟩ := h2
  rw [List.mem_filter] at hm
  have hpred := hm.2
  unfold msgMatchesSearch at hpred
  rw [h] at hpred
  simp only [Bool.false_or, Bool.and_eq_true, Bool.not_eq_true',
    beq_eq_false_iff_ne, ne_eq] at hpred
  have : hit.2 = m := by rw [← heq]
  rw [this]
  exact hpred.1.1.2

theorem bumpBest_snippets (e : GroupEntry) (score : Int) :
    (bumpBest e score).snippets = e.snippets := by
  unfold bumpBest
  split <;> rfl

theorem pushSnippet_mem (e : GroupEntry) (sn x : MatchSnippet)
    (hx : x ∈ (pushSnippet e sn).snippets) : x ∈ e.snippets ∨ x = sn := by
  unfold pushSnippet at hx
  split at hx
  · simpa using hx
  · exact Or.inl hx

theorem groupInsert_snippet_prop (P : MatchSnippet → Prop) (sid : String)
    (score : Int) (sn : MatchSnippet) :
    ∀ (acc : List (String × GroupEntry)),
      (∀ g ∈ acc, ∀ x ∈ (g : String × GroupEntry).2.snippets, P x) → P sn →
      ∀ g ∈ groupInsert sid score sn acc, ∀ x ∈ g.2.snippets, P x := by
  intro acc
  induction acc with
  | nil =>
    intro _ hsn g hg x hx
    simp only [groupInsert, List.mem_singleton] at hg
    subst hg
    simp only [List.mem_singleton] at hx
    subst hx
    exact hsn
  | cons p rest ih =>
    intro hacc hsn g hg x hx
    obtain ⟨k, e⟩ := p
    unfold groupInsert at hg
    split at hg
    · rcases List.mem_cons.mp hg with hg1 | hg1
      · subst hg1
        rcases pushSnippet_mem _ _ _ hx with hx1 | hx1
        · rw [bumpBest_snippets] at hx1
          exact hacc (k, e) (List.mem_cons_self _ _) x hx1
        · subst hx1
          exact hsn
      · exact hacc g (List.mem_cons_of_mem _ hg1) x hx
    · rcases List.mem_cons.mp hg with hg1 | hg1
      · subst hg1
        exact hacc (k, e) (List.mem_cons_self _ _) x hx
      · exact ih (fun g2 hg2 => hacc g2 (List.mem_cons_of_mem _ hg2)) hsn g hg1 x hx

theorem groupHits_snippet_prop (env : ChronoEnv) (filter : Option SearchFilter)
    (P : MatchSnippet → Prop) :
    ∀ (hits : List (Int × MsgDoc)) (acc : List (String × GroupEntry)),
      (∀ g ∈ acc, ∀ x ∈ (g : String × GroupEntry).2.snippets, P x) →
      (∀ hit ∈ hits, P (mkSnippet env (hit : Int × MsgDoc).2)) →
      ∀ g ∈ groupHits env filter acc hits, ∀ x ∈ g.2.snippets, P x := by
  intro hits
  induction hits with
  | nil => intro acc hacc _ g hg x hx; exact hacc g hg x hx
  | cons hit rest ih =>
    intro acc hacc hhits g hg x hx
    obtain ⟨score, m⟩ := hit
    unfold groupHits at hg
    split at hg
    · exact ih acc hacc
        (fun h2 hh2 => hhits h2 (List.mem_cons_of_mem _ hh2)) g hg x hx
    · split at hg
      · exact ih acc hacc
          (fun h2 hh2 => hhits h2 (List.mem_cons_of_mem _ hh2)) g hg x hx
      · exact ih _
          (groupInsert_snippet_prop P m.session_id score (mkSnippet env m) acc
            hacc (hhits (score, m) (List.mem_cons_self _ _)))
          (fun h2 hh2 => hhits h2 (List.mem_cons_of_mem _ hh2)) g hg x hx

/-- Claim C7: with `includeToolOutput = false` (in particular with no
filter at all), no snippet of any result returned by
`search_sessions_query` has `contentType = "tool_result"`. -/
theorem C7_no_tool_result (env : ChronoEnv) (qmOpt : Option (String → Bool))
    (score : MsgDoc → Int) (filter : Option SearchFilter) (idx : List Doc)
    (results : List SearchResult) (res : SearchResult) (sn : MatchSnippet)
    (hto : includeToolOutputOf filter = false)
    (hok : search_sessions_query env qmOpt score filter idx = .ok results)
    (hres : res ∈ results) (hsn : sn ∈ res.snippets) :
    sn.content_type ≠ "tool_result" := by
  cases qmOpt with
  | none => exact absurd hok (by simp [search_sessions_query])
  | some qm =>
    simp only [search_sessions_query] at hok
    split at hok
    · have hempty : results = [] := by
        injection hok with h2
        exact h2.symm
      rw [hempty] at hres
      exact absurd hres (List.not_mem_nil res)
    · injection hok with h2
      subst h2
      have h3 := List.take_subset _ _ hres
      rw [mem_sortByOrder, List.mem_map] at h3
      obtain ⟨g, hg, hgr⟩ := h3
      have hsng : sn ∈ g.2.snippets := by
        have h4 : res.snippets = g.2.snippets := by
          rw [← hgr]
          rfl
        rwa [h4] at hsn
      exact groupHits_snippet_prop env filter
        (fun x => x.content_type ≠ "tool_result")
        (phase1Hits qm score filter idx) []
        (by intro g2 hg2; exact absurd hg2 (List.not_mem_nil g2))
        (fun hit hh => phase1Hits_not_tool_result qm score filter idx hto hit hh)
        g hg sn hsng

/-- Fixture: a text message for the search witness. -/
def msgSearch : MsgDoc :=
  { session_id := "s1", role := "user", content := "hello world"
    content_stored := "hello world", content_type := "text", timestamp := none
    turn_index := 0, block_index := 0, msg_project := "/p" }

/-- Fixture: the chrono environment for witnesses (never consulted on the
fixture data). -/
def env0 : ChronoEnv :=
  { parseTs := fun _ => none, parseDate := fun _ => none, fmtDate := fun _ => "" }

/-- Fixture index for the search witness. -/
def idxSearch : List Doc := [Doc.session existing0, Doc.message msgSearch]

/-- The results the search witness query returns. -/
def resultsSearch : List SearchResult :=
  match search_sessions_query env0 (some (fun _ => true)) (fun _ => 0) none
    idxSearch with
  | .ok r => r
  | .error _ => []

/-- The first result and first snippet of the witness query. -/
def resSearch : SearchResult :=
  resultsSearch.headD ⟨"", 0, [], none, none, none, none, true⟩

/-- The first snippet of the witness query. -/
def snSearch : MatchSnippet := resSearch.snippets.headD ⟨"", "", "", none, 0⟩

/-- Witness for C7 on a concrete one-message index. -/
theorem C7_no_tool_result_witness : snSearch.content_type ≠ "tool_result" :=
  C7_no_tool_result env0 (some (fun _ => true)) (fun _ => 0) none idxSearch
    resultsSearch resSearch snSearch (by decide) rfl (by decide) (by decide)

end SwarmUI
